import Mathlib

/- Shallow embedding of the awry ApplicationsAPI client
   (src/api/ApplicationsAPI.js): a thin REST client for the Asterisk ARI
   /applications endpoint.  Each method builds one HTTP request from the
   immutable configuration captured at construction and hands it to the
   request function bound with basic-auth credentials and JSON mode. -/

/-- Immutable client configuration captured by the constructor: the base
url plus the basic-auth credentials bound into the request defaults. -/
structure Config where
  baseUrl : String
  username : String
  password : String
deriving DecidableEq

/-- HTTP methods used by the four operations. -/
inductive HttpMethod
  | GET
  | POST
  | DELETE
deriving DecidableEq

/-- The request object handed to the underlying request function:
method, full uri, and query-string parameters. -/
structure Request where
  method : HttpMethod
  uri : String
  qs : List (String × String)
deriving DecidableEq

/-- Characters left unescaped by JavaScript encodeURIComponent: ASCII
letters, digits, and hyphen, underscore, dot, bang, tilde, star,
apostrophe and round brackets. -/
def isUnreservedJS (ch : Char) : Bool :=
  ch.isAlpha || ch.isDigit || ch == '-' || ch == '_' || ch == '.' ||
    ch == '!' || ch == '~' || ch == '*' || ch == Char.ofNat 39 ||
    ch == '(' || ch == ')'

/-- Uppercase hexadecimal digit for a value below sixteen. -/
def hexChar (n : Nat) : Char :=
  if n < 10 then Char.ofNat (48 + n) else Char.ofNat (55 + n)

/-- UTF-8 code units of a character, as natural numbers below 256. -/
def utf8Bytes (ch : Char) : List Nat :=
  if ch.toNat < 0x80 then [ch.toNat]
  else if ch.toNat < 0x800 then
    [0xC0 + ch.toNat / 0x40, 0x80 + ch.toNat % 0x40]
  else if ch.toNat < 0x10000 then
    [0xE0 + ch.toNat / 0x1000, 0x80 + (ch.toNat / 0x40) % 0x40,
      0x80 + ch.toNat % 0x40]
  else
    [0xF0 + ch.toNat / 0x40000, 0x80 + (ch.toNat / 0x1000) % 0x40,
      0x80 + (ch.toNat / 0x40) % 0x40, 0x80 + ch.toNat % 0x40]

/-- Percent-escape of one byte: a percent sign followed by two uppercase
hexadecimal digits. -/
def percentByte (b : Nat) : List Char :=
  ['%', hexChar (b / 16), hexChar (b % 16)]

/-- Concatenation of a list of character lists. -/
def flatChars : List (List Char) → List Char
  | [] => []
  | l :: ls => l ++ flatChars ls

/-- Encoding of a single character under encodeURIComponent: unreserved
characters pass through, every other character becomes the
percent-escapes of its UTF-8 bytes. -/
def encodeChar (ch : Char) : List Char :=
  if isUnreservedJS ch then [ch]
  else flatChars ((utf8Bytes ch).map percentByte)

/-- JavaScript encodeURIComponent over a whole string. -/
def encodeURIComponent (s : String) : String :=
  String.mk (flatChars (s.data.map encodeChar))

/-- Path segment built from the applicationName parameter.  When the
field is absent, JavaScript string interpolation inside
encodeURIComponent coerces the undefined value to the string form
"undefined" before percent-encoding. -/
def appSegment : Option String → String
  | some name => encodeURIComponent name
  | none => encodeURIComponent "undefined"

/-- The eventSource parameter as the caller supplies it: a single
string or an ordered sequence of strings. -/
inductive EventSource
  | single : String → EventSource
  | seq : List String → EventSource
deriving DecidableEq

/-- The JavaScript concat of an empty array with the eventSource value:
a plain value, even the absent undefined value, becomes a one-element
array, while an array is kept as is. -/
def jsConcat : Option EventSource → List (Option String)
  | none => [none]
  | some (.single s) => [some s]
  | some (.seq xs) => xs.map some

/-- JavaScript Array.join with a comma separator: elements are
separated by commas and an undefined element renders as the empty
string. -/
def jsJoin : List (Option String) → String
  | [] => ""
  | [x] => x.getD ""
  | x :: rest => x.getD "" ++ "," ++ jsJoin rest

/-- The comma-joined eventSource query value built by subscribe and
unsubscribe. -/
def eventSourceValue (es : Option EventSource) : String :=
  jsJoin (jsConcat es)

/-- The spec-side description of the eventSource query value: the
elements joined with commas. -/
def joinedWithCommas : List String → String
  | [] => ""
  | [s] => s
  | s :: rest => s ++ "," ++ joinedWithCommas rest

namespace ApplicationsAPI

/-- list: GET baseUrl/applications, no query parameters. -/
def list (cfg : Config) : Request :=
  ⟨.GET, cfg.baseUrl ++ "/applications", []⟩

/-- get: GET baseUrl/applications/app with app the percent-encoded
application name. -/
def get (cfg : Config) (applicationName : Option String) : Request :=
  ⟨.GET, cfg.baseUrl ++ "/applications/" ++ appSegment applicationName, []⟩

/-- subscribe: POST baseUrl/applications/app/subscription with the
comma-joined eventSource query parameter. -/
def subscribe (cfg : Config) (applicationName : Option String)
    (eventSource : Option EventSource) : Request :=
  ⟨.POST,
    cfg.baseUrl ++ "/applications/" ++ appSegment applicationName ++ "/subscription",
    [("eventSource", eventSourceValue eventSource)]⟩

/-- unsubscribe: DELETE baseUrl/applications/app/subscription with the
comma-joined eventSource query parameter. -/
def unsubscribe (cfg : Config) (applicationName : Option String)
    (eventSource : Option EventSource) : Request :=
  ⟨.DELETE,
    cfg.baseUrl ++ "/applications/" ++ appSegment applicationName ++ "/subscription",
    [("eventSource", eventSourceValue eventSource)]⟩

/-- Requests dispatched by one call to get: the method body hands a
single request object to the bound request function. -/
def getRequests (cfg : Config) (n : Option String) : List Request :=
  [get cfg n]

end ApplicationsAPI

/-- An HTTP response: status code and body. -/
structure HttpResponse where
  status : Nat
  body : String
deriving DecidableEq

/-- Whether a status code counts as success. -/
def is2xx (status : Nat) : Bool :=
  decide (200 ≤ status) && decide (status < 300)

/-- Modelled from the spec: the underlying request mechanism (the
request defaults bound at construction, which live in the request
library rather than in this repository) resolves a 2xx response with
its parsed body and rejects any other response with an error carrying
the status code and body unmodified. -/
def handleResponse (resp : HttpResponse) : Except HttpResponse String :=
  if is2xx resp.status then Except.ok resp.body else Except.error resp

namespace ApplicationsAPI

/-- One call to list: builds the request, applies the transport to it
exactly once, and returns the transport outcome unmodified. -/
def listRun (cfg : Config) (t : Request → HttpResponse) :
    Except HttpResponse String :=
  handleResponse (t (list cfg))

/-- One call to get: builds the request, applies the transport to it
exactly once, and returns the transport outcome unmodified. -/
def getRun (cfg : Config) (n : Option String)
    (t : Request → HttpResponse) : Except HttpResponse String :=
  handleResponse (t (get cfg n))

/-- One call to subscribe: builds the request, applies the transport to
it exactly once, and returns the transport outcome unmodified. -/
def subscribeRun (cfg : Config) (n : Option String)
    (es : Option EventSource) (t : Request → HttpResponse) :
    Except HttpResponse String :=
  handleResponse (t (subscribe cfg n es))

/-- One call to unsubscribe: builds the request, applies the transport
to it exactly once, and returns the transport outcome unmodified. -/
def unsubscribeRun (cfg : Config) (n : Option String)
    (es : Option EventSource) (t : Request → HttpResponse) :
    Except HttpResponse String :=
  handleResponse (t (unsubscribe cfg n es))

end ApplicationsAPI

/-- A method call made against a client instance. -/
inductive Op
  | opList
  | opGet (name : Option String)
  | opSubscribe (name : Option String) (es : Option EventSource)
  | opUnsubscribe (name : Option String) (es : Option EventSource)

/-- One method call: the request it issues and the client state it
leaves behind.  No method body assigns to the client fields, so the
configuration component is returned unchanged. -/
def stepOp (cfg : Config) : Op → Request × Config
  | .opList => (ApplicationsAPI.list cfg, cfg)
  | .opGet n => (ApplicationsAPI.get cfg n, cfg)
  | .opSubscribe n es => (ApplicationsAPI.subscribe cfg n es, cfg)
  | .opUnsubscribe n es => (ApplicationsAPI.unsubscribe cfg n es, cfg)

/-- Client state after a sequence of calls. -/
def runOps (cfg : Config) : List Op → Config
  | [] => cfg
  | o :: os => runOps (stepOp cfg o).2 os

/- ------------------------------------------------------------------ -/
/- Helper lemmas                                                       -/
/- ------------------------------------------------------------------ -/

/-- Joining after wrapping every element in some agrees with the plain
comma join. -/
theorem jsJoin_map_some (xs : List String) :
    jsJoin (xs.map some) = joinedWithCommas xs := by
  induction xs with
  | nil => rfl
  | cons a t ih =>
    cases t with
    | nil => rfl
    | cons b u =>
      show a ++ "," ++ jsJoin (some b :: u.map some)
          = a ++ "," ++ joinedWithCommas (b :: u)
      rw [← List.map_cons, ih]

theorem char_toNat_lt (ch : Char) : ch.toNat < 1114112 := by
  rcases ch.valid with h | h
  · exact Nat.lt_trans h (by norm_num)
  · exact h.2

theorem utf8Bytes_lt_256 (ch : Char) : ∀ b ∈ utf8Bytes ch, b < 256 := by
  have hch := char_toNat_lt ch
  intro b hb
  simp only [utf8Bytes] at hb
  split at hb
  · simp only [List.mem_singleton] at hb
    omega
  · split at hb
    · simp only [List.mem_cons, List.not_mem_nil, or_false] at hb
      rcases hb with hb | hb <;> omega
    · split at hb
      · simp only [List.mem_cons, List.not_mem_nil, or_false] at hb
        rcases hb with hb | hb | hb <;> omega
      · simp only [List.mem_cons, List.not_mem_nil, or_false] at hb
        rcases hb with hb | hb | hb | hb <;> omega

theorem hexChar_not_reserved (n : Nat) (hn : n < 16) :
    hexChar n ≠ ' ' ∧ hexChar n ≠ '/' := by
  have h : ∀ m : Fin 16, hexChar m.val ≠ ' ' ∧ hexChar m.val ≠ '/' := by decide
  exact h ⟨n, hn⟩

theorem mem_flatChars {x : Char} :
    ∀ {ls : List (List Char)}, x ∈ flatChars ls ↔ ∃ l ∈ ls, x ∈ l := by
  intro ls
  induction ls with
  | nil => simp [flatChars]
  | cons l ls ih => simp [flatChars, ih, List.mem_append]

theorem encodeChar_not_reserved (ch : Char) :
    ∀ x ∈ encodeChar ch, x ≠ ' ' ∧ x ≠ '/' := by
  intro x hx
  unfold encodeChar at hx
  split at hx
  case isTrue hres =>
    simp only [List.mem_singleton] at hx
    subst hx
    refine ⟨?_, ?_⟩ <;> intro h <;> subst h <;> simp [isUnreservedJS] at hres
  case isFalse hres =>
    rw [mem_flatChars] at hx
    obtain ⟨l, hl, hxl⟩ := hx
    rw [List.mem_map] at hl
    obtain ⟨b, hb, rfl⟩ := hl
    have hb256 := utf8Bytes_lt_256 ch b hb
    simp only [percentByte, List.mem_cons, List.not_mem_nil, or_false] at hxl
    rcases hxl with rfl | rfl | rfl
    · exact ⟨by decide, by decide⟩
    · exact hexChar_not_reserved (b / 16) (by omega)
    · exact hexChar_not_reserved (b % 16) (by omega)

theorem encodeURIComponent_not_reserved (s : String) :
    ' ' ∉ (encodeURIComponent s).data ∧ '/' ∉ (encodeURIComponent s).data := by
  have key : ∀ x ∈ (encodeURIComponent s).data, x ≠ ' ' ∧ x ≠ '/' := by
    intro x hx
    have hx' : x ∈ flatChars (s.data.map encodeChar) := hx
    rw [mem_flatChars] at hx'
    obtain ⟨l, hl, hxl⟩ := hx'
    rw [List.mem_map] at hl
    obtain ⟨ch, _, rfl⟩ := hl
    exact encodeChar_not_reserved ch x hxl
  constructor <;> intro h
  · exact (key _ h).1 rfl
  · exact (key _ h).2 rfl

/- ------------------------------------------------------------------ -/
/- Claims                                                              -/
/- ------------------------------------------------------------------ -/

/-- Claim C1: for every eventSource input to subscribe or unsubscribe,
given as a single string or as an ordered sequence of strings, the
request carries a single query parameter named eventSource whose value
is the elements joined with commas; in particular the single string
"PJSIP/6001" yields PJSIP/6001 and the sequence ch1, ch2 yields
ch1,ch2. -/
theorem eventSource_comma_join (cfg : Config) (n : Option String)
    (s : String) (xs : List String) :
    (ApplicationsAPI.subscribe cfg n (some (.single s))).qs
        = [("eventSource", s)]
    ∧ (ApplicationsAPI.subscribe cfg n (some (.seq xs))).qs
        = [("eventSource", joinedWithCommas xs)]
    ∧ (ApplicationsAPI.unsubscribe cfg n (some (.single s))).qs
        = [("eventSource", s)]
    ∧ (ApplicationsAPI.unsubscribe cfg n (some (.seq xs))).qs
        = [("eventSource", joinedWithCommas xs)]
    ∧ (ApplicationsAPI.subscribe cfg n (some (.single "PJSIP/6001"))).qs
        = [("eventSource", "PJSIP/6001")]
    ∧ (ApplicationsAPI.subscribe cfg n (some (.seq ["ch1", "ch2"]))).qs
        = [("eventSource", "ch1,ch2")] := by
  refine ⟨rfl, ?_, rfl, ?_, rfl, rfl⟩ <;>
    simp [ApplicationsAPI.subscribe, ApplicationsAPI.unsubscribe,
      eventSourceValue, jsConcat, jsJoin_map_some]

/-- Claim C2: the four operations issue exactly the methods and paths of
the interface table: list is GET /applications with no query
parameters, get is GET /applications/name, subscribe is POST
/applications/name/subscription with the eventSource query parameter,
unsubscribe is DELETE /applications/name/subscription with the
eventSource query parameter. -/
theorem interface_table (cfg : Config) (name : String)
    (es : Option EventSource) :
    ApplicationsAPI.list cfg
        = ⟨.GET, cfg.baseUrl ++ "/applications", []⟩
    ∧ ApplicationsAPI.get cfg (some name)
        = ⟨.GET, cfg.baseUrl ++ "/applications/" ++ encodeURIComponent name, []⟩
    ∧ ApplicationsAPI.subscribe cfg (some name) es
        = ⟨.POST,
            cfg.baseUrl ++ "/applications/" ++ encodeURIComponent name ++ "/subscription",
            [("eventSource", eventSourceValue es)]⟩
    ∧ ApplicationsAPI.unsubscribe cfg (some name) es
        = ⟨.DELETE,
            cfg.baseUrl ++ "/applications/" ++ encodeURIComponent name ++ "/subscription",
            [("eventSource", eventSourceValue es)]⟩ :=
  ⟨rfl, rfl, rfl, rfl⟩

/-- Claim C3: get issues exactly one request, a GET whose path is
/applications/ followed by the percent-encoded application name. -/
theorem get_single_request (cfg : Config) (name : String) :
    ApplicationsAPI.getRequests cfg (some name)
        = [⟨.GET, cfg.baseUrl ++ "/applications/" ++ encodeURIComponent name, []⟩]
    ∧ (ApplicationsAPI.getRequests cfg (some name)).length = 1 :=
  ⟨rfl, rfl⟩

/-- Claim C4: for every application name containing a character reserved
in url path segments, such as a space or a slash, get, subscribe and
unsubscribe all place the percent-encoded name in the request path, and
the encoded segment contains no raw space and no raw slash. -/
theorem reserved_chars_percent_encoded (cfg : Config) (name : String)
    (es : Option EventSource)
    (_h : ' ' ∈ name.data ∨ '/' ∈ name.data) :
    (ApplicationsAPI.get cfg (some name)).uri
        = cfg.baseUrl ++ "/applications/" ++ encodeURIComponent name
    ∧ (ApplicationsAPI.subscribe cfg (some name) es).uri
        = cfg.baseUrl ++ "/applications/" ++ encodeURIComponent name ++ "/subscription"
    ∧ (ApplicationsAPI.unsubscribe cfg (some name) es).uri
        = cfg.baseUrl ++ "/applications/" ++ encodeURIComponent name ++ "/subscription"
    ∧ ' ' ∉ (encodeURIComponent name).data
    ∧ '/' ∉ (encodeURIComponent name).data := by
  obtain ⟨h1, h2⟩ := encodeURIComponent_not_reserved name
  exact ⟨rfl, rfl, rfl, h1, h2⟩

/-- Claim C4 witness: the name with a space and a slash is reserved and
its path segment percent-encodes both characters. -/
theorem reserved_chars_percent_encoded_witness :
    (' ' ∈ "a b/c".data ∨ '/' ∈ "a b/c".data)
    ∧ ((ApplicationsAPI.get ⟨"http://s:8088/ari", "u", "p"⟩ (some "a b/c")).uri
          = "http://s:8088/ari" ++ "/applications/" ++ encodeURIComponent "a b/c"
        ∧ (ApplicationsAPI.subscribe ⟨"http://s:8088/ari", "u", "p"⟩ (some "a b/c") none).uri
          = "http://s:8088/ari" ++ "/applications/" ++ encodeURIComponent "a b/c" ++ "/subscription"
        ∧ (ApplicationsAPI.unsubscribe ⟨"http://s:8088/ari", "u", "p"⟩ (some "a b/c") none).uri
          = "http://s:8088/ari" ++ "/applications/" ++ encodeURIComponent "a b/c" ++ "/subscription"
        ∧ ' ' ∉ (encodeURIComponent "a b/c").data
        ∧ '/' ∉ (encodeURIComponent "a b/c").data)
    ∧ encodeURIComponent "a b/c" = "a%20b%2Fc" :=
  ⟨by decide,
    reserved_chars_percent_encoded ⟨"http://s:8088/ari", "u", "p"⟩ "a b/c" none
      (by decide),
    by decide⟩

/-- Claim C5: for every pair of application name and eventSource,
subscribe and unsubscribe build requests with identical uri and
identical query string, differing only in HTTP method: POST for
subscribe and DELETE for unsubscribe. -/
theorem subscribe_unsubscribe_same_shape (cfg : Config)
    (n : Option String) (es : Option EventSource) :
    (ApplicationsAPI.subscribe cfg n es).uri
        = (ApplicationsAPI.unsubscribe cfg n es).uri
    ∧ (ApplicationsAPI.subscribe cfg n es).qs
        = (ApplicationsAPI.unsubscribe cfg n es).qs
    ∧ (ApplicationsAPI.subscribe cfg n es).method = .POST
    ∧ (ApplicationsAPI.unsubscribe cfg n es).method = .DELETE :=
  ⟨rfl, rfl, rfl, rfl⟩

/-- Claim C6: for every operation and every non-2xx response from the
transport, the operation rejects with exactly the response the
transport produced, status code and body unmodified, the transport
having been applied exactly once to the built request. -/
theorem non2xx_propagates (cfg : Config) (n : Option String)
    (es : Option EventSource) (t : Request → HttpResponse)
    (h1 : is2xx (t (ApplicationsAPI.list cfg)).status = false)
    (h2 : is2xx (t (ApplicationsAPI.get cfg n)).status = false)
    (h3 : is2xx (t (ApplicationsAPI.subscribe cfg n es)).status = false)
    (h4 : is2xx (t (ApplicationsAPI.unsubscribe cfg n es)).status = false) :
    ApplicationsAPI.listRun cfg t
        = Except.error (t (ApplicationsAPI.list cfg))
    ∧ ApplicationsAPI.getRun cfg n t
        = Except.error (t (ApplicationsAPI.get cfg n))
    ∧ ApplicationsAPI.subscribeRun cfg n es t
        = Except.error (t (ApplicationsAPI.subscribe cfg n es))
    ∧ ApplicationsAPI.unsubscribeRun cfg n es t
        = Except.error (t (ApplicationsAPI.unsubscribe cfg n es)) := by
  refine ⟨?_, ?_, ?_, ?_⟩ <;>
    simp [ApplicationsAPI.listRun, ApplicationsAPI.getRun,
      ApplicationsAPI.subscribeRun, ApplicationsAPI.unsubscribeRun,
      handleResponse, h1, h2, h3, h4]

/-- Claim C6 witness: against a transport answering 404 with a fixed
body, get on a missing application rejects with exactly status 404 and
that body. -/
theorem non2xx_propagates_witness :
    is2xx 404 = false
    ∧ ApplicationsAPI.getRun ⟨"http://s:8088/ari", "u", "p"⟩ (some "missing")
          (fun _ => ⟨404, "Application not found"⟩)
        = Except.error ⟨404, "Application not found"⟩ :=
  ⟨by decide,
    (non2xx_propagates ⟨"http://s:8088/ari", "u", "p"⟩ (some "missing") none
        (fun _ => ⟨404, "Application not found"⟩) rfl rfl rfl rfl).2.1⟩

/-- Claim C7: the configuration is fixed at construction: any sequence
of calls leaves the client state unchanged, so a further call issues
exactly the request it would issue on a fresh client. -/
theorem config_immutable (cfg : Config) (ops : List Op) (o : Op) :
    runOps cfg ops = cfg
    ∧ stepOp (runOps cfg ops) o = stepOp cfg o := by
  have h : ∀ os c, runOps c os = c := by
    intro os
    induction os with
    | nil => intro c; rfl
    | cons a t ih => intro c; cases a <;> exact ih c
  exact ⟨h ops cfg, by rw [h ops cfg]⟩

/-- Claim C8: with the applicationName absent, get, subscribe and
unsubscribe perform no local validation: the path segment is the
literal string undefined and the request is still handed to the
transport, whose outcome is returned unmodified. -/
theorem absent_name_undefined (cfg : Config) (es : Option EventSource)
    (t : Request → HttpResponse) :
    (ApplicationsAPI.get cfg none).uri
        = cfg.baseUrl ++ "/applications/" ++ "undefined"
    ∧ (ApplicationsAPI.subscribe cfg none es).uri
        = cfg.baseUrl ++ "/applications/" ++ "undefined" ++ "/subscription"
    ∧ (ApplicationsAPI.unsubscribe cfg none es).uri
        = cfg.baseUrl ++ "/applications/" ++ "undefined" ++ "/subscription"
    ∧ appSegment none = "undefined"
    ∧ ApplicationsAPI.getRun cfg none t
        = handleResponse (t (ApplicationsAPI.get cfg none)) :=
  ⟨rfl, rfl, rfl, rfl, rfl⟩

/-- Claim C9: with the eventSource absent or an empty sequence,
subscribe and unsubscribe do not fail locally: the request carries the
eventSource query parameter set to the empty string and is still handed
to the transport. -/
theorem empty_eventSource (cfg : Config) (n : Option String)
    (t : Request → HttpResponse) :
    (ApplicationsAPI.subscribe cfg n none).qs = [("eventSource", "")]
    ∧ (ApplicationsAPI.subscribe cfg n (some (.seq []))).qs
        = [("eventSource", "")]
    ∧ (ApplicationsAPI.unsubscribe cfg n none).qs = [("eventSource", "")]
    ∧ (ApplicationsAPI.unsubscribe cfg n (some (.seq []))).qs
        = [("eventSource", "")]
    ∧ ApplicationsAPI.subscribeRun cfg n none t
        = handleResponse (t (ApplicationsAPI.subscribe cfg n none))
    ∧ ApplicationsAPI.unsubscribeRun cfg n none t
        = handleResponse (t (ApplicationsAPI.unsubscribe cfg n none)) :=
  ⟨rfl, rfl, rfl, rfl, rfl, rfl⟩

/-- Claim C10: the comma-join is not injective: for every sequence xs,
the single string made of the elements of xs joined with commas builds
exactly the same subscribe and unsubscribe requests as the sequence xs
itself; in particular the single string ch1,ch2 and the sequence
ch1, ch2 are indistinguishable on the wire. -/
theorem comma_join_not_injective (cfg : Config) (n : Option String)
    (xs : List String) :
    ApplicationsAPI.subscribe cfg n (some (.single (joinedWithCommas xs)))
        = ApplicationsAPI.subscribe cfg n (some (.seq xs))
    ∧ ApplicationsAPI.unsubscribe cfg n (some (.single (joinedWithCommas xs)))
        = ApplicationsAPI.unsubscribe cfg n (some (.seq xs))
    ∧ ApplicationsAPI.subscribe cfg n (some (.single "ch1,ch2"))
        = ApplicationsAPI.subscribe cfg n (some (.seq ["ch1", "ch2"])) := by
  refine ⟨?_, ?_, rfl⟩ <;>
    simp [ApplicationsAPI.subscribe, ApplicationsAPI.unsubscribe,
      eventSourceValue, jsConcat, jsJoin, jsJoin_map_some]
